import Mathlib

/-!
Verification of `src/zedToKittiDataset.py` (camera_utils).

The script converts a ZED stereo recording to a KITTI-style dataset.  We give
a shallow embedding: the ZED SDK handle is modelled as a `Recording` value
(open status, calibration block, stream of grab outcomes); the filesystem
effects of a run are collected in a `RunOutput` record; Python float values
are modelled as exact rationals, and Python's `"%.9f"` / `"%06d"` formatting
is reimplemented over `List Char` (round-half-even at 9 decimal places, as
printf rounding does).
-/

set_option maxRecDepth 100000

namespace ZedKitti

/-- One decimal digit as a character. -/
def digitChar (d : ℕ) : Char := Char.ofNat (48 + d)

/-- Decimal digits, with fuel for structural recursion (`n / 10 < n`, so any
fuel above `n` is enough). -/
def natDigsAux : ℕ → ℕ → List Char
  | 0, _ => []
  | fuel + 1, n =>
      if n < 10 then [digitChar n]
      else natDigsAux fuel (n / 10) ++ [digitChar (n % 10)]

/-- Decimal digits of a natural number, most significant first
(the rendering used by Python's `str`/format for nonnegative integers). -/
def natDigs (n : ℕ) : List Char := natDigsAux (n + 1) n

/-- Left-pad a character list with `'0'` to width `w` (Python `"%0wd"`). -/
def pad0 (w : ℕ) (l : List Char) : List Char :=
  List.replicate (w - l.length) '0' ++ l

/-- Python `f"{n:06d}"` for a natural number. -/
def fmt06 (n : ℕ) : String := ⟨pad0 6 (natDigs n)⟩

/-- Round the fraction `N / D` (with `D > 0`) to the nearest integer, ties to
even (the rounding used by IEEE-754 / printf `"%.f"` formatting).  Stated over
`ℤ` so that it evaluates by kernel reduction. -/
def roundHalfEvenInt (N D : ℤ) : ℤ :=
  let down := Int.fdiv N D
  let rem := N - down * D
  if 2 * rem < D then down
  else if D < 2 * rem then down + 1
  else if down % 2 = 0 then down else down + 1

/-- The integer nearest to `q * 10 ^ 9 = (q.num * 10 ^ 9) / q.den`, ties to
even: the scaled value printf renders at 9 decimal places. -/
def scaled9 (q : ℚ) : ℤ := roundHalfEvenInt (q.num * 10 ^ 9) q.den

/-- Python `f"{q:.9f}"`: fixed-point rendering with exactly 9 digits after
the decimal point, as a character list. -/
def fmt9 (q : ℚ) : List Char :=
  (if scaled9 q < 0 then ['-'] else []) ++
    natDigs ((scaled9 q).natAbs / 10 ^ 9) ++
    '.' :: pad0 9 (natDigs ((scaled9 q).natAbs % 10 ^ 9))

/-- Characters of a string literal. -/
def chars (s : String) : List Char := s.data

/-- Split a character list at every occurrence of `c` (the separator is
dropped; `n` separators yield `n + 1` chunks). -/
def splitChar (c : Char) : List Char → List (List Char)
  | [] => [[]]
  | x :: xs =>
      match splitChar c xs with
      | [] => [[x]]
      | y :: ys => if x = c then [] :: y :: ys else (x :: y) :: ys

/-- The lines of a text file whose every line ends in `'\n'`. -/
def fileLines (l : List Char) : List (List Char) :=
  (splitChar '\n' l).dropLast

/-- Number of digits after the decimal point of a rendered value
(0 if the token does not contain exactly one `'.'`). -/
def decimalsOf (tok : List Char) : ℕ :=
  match splitChar '.' tok with
  | [_, b] => b.length
  | _ => 0

/-! ## Path handling (`os.path.splitext`, `os.path.join`, POSIX rules) -/

/-- Python `str.rfind` for a single character: index of the last occurrence,
`-1` when absent. -/
def rfindC (c : Char) : List Char → ℤ
  | [] => -1
  | x :: xs =>
      let r := rfindC c xs
      if 0 ≤ r then r + 1 else if x = c then 0 else -1

/-- The root part of `os.path.splitext` (POSIX): cut at the last `'.'` of the
basename unless every character of the basename before it is a `'.'`
(leading dots do not start an extension). -/
def splitextRoot (p : List Char) : List Char :=
  let sepIndex := rfindC '/' p
  let dotIndex := rfindC '.' p
  if dotIndex > sepIndex ∧
      ((List.range p.length).any fun i =>
        decide (sepIndex < (i : ℤ)) && decide ((i : ℤ) < dotIndex) &&
        (p.getD i '.' != '.')) = true
  then p.take dotIndex.toNat
  else p

/-- `os.path.join` (POSIX) for two components. -/
def pathJoin (a b : String) : String :=
  if b.data.head? = some '/' then b
  else if a.data = [] ∨ a.data.getLast? = some '/' then a ++ b
  else a ++ "/" ++ b

/-! ## The ZED SDK model

The SDK handle is modelled as a `Recording`: the result of `zed.open`, the
calibration block reachable from `get_camera_information()`, and the stream
of `zed.grab` outcomes.  Images (`sl.Mat.get_data()`) are modelled as their
list of channels, each channel an opaque token, so that the `[:, :, :3]`
slice is `List.take 3`. -/

/-- A retrieved image buffer: its channels. -/
abbrev Img := List ℕ

/-- `calibration_parameters.left_cam` / `.right_cam`. -/
structure CamParams where
  fx : ℚ
  fy : ℚ
  cx : ℚ
  cy : ℚ
deriving DecidableEq

/-- `camera_configuration.calibration_parameters`: both intrinsic blocks and
`stereo_transform.get_translation().get()` (a 3-vector, metres). -/
structure CalibrationParameters where
  left_cam : CamParams
  right_cam : CamParams
  translation : ℚ × ℚ × ℚ
deriving DecidableEq

/-- `sl.ERROR_CODE`: success, or any of the non-success codes. -/
inductive ErrorCode
  | SUCCESS
  | FAILURE (code : ℕ)
deriving DecidableEq

/-- What one successful `zed.grab` makes available: the two camera views and
the timestamp under each `sl.TIME_REFERENCE` (nanoseconds). -/
structure Frame where
  left_data : Img
  right_data : Img
  ts_image_ns : ℕ
  ts_current_ns : ℕ
deriving DecidableEq

/-- One `zed.grab(runtime_params)` outcome. -/
inductive GrabStep
  | ok (f : Frame)
  | fail (code : ℕ)
deriving DecidableEq

/-- The opened input file as the script sees it. -/
structure Recording where
  openStatus : ErrorCode
  calib : CalibrationParameters
  grabs : List GrabStep
deriving DecidableEq

/-- Calls made on the SDK handle, in program order. -/
inductive HEvent
  | openCall
  | calibRead
  | grabCall
  | closeCall
deriving DecidableEq

/-- Everything a run of `zed2_to_kitti` leaves behind: the process exit code,
the directories it created, the text files it wrote (`none` = never
created), the image files written to `image_0`/`image_1` (filename paired
with the written buffer, in write order), the frame count it reports, and
the trace of handle calls. -/
structure RunOutput where
  exitCode : ℕ
  outputDir : String
  dirsCreated : List String
  timesTxt : Option (List Char)
  calibTxt : Option (List Char)
  image0Files : List (String × Img)
  image1Files : List (String × Img)
  exportedCount : ℕ
  events : List HEvent
deriving DecidableEq

/-- The exact value of `ts * 1e-9`: nanoseconds to seconds
(`Rat.divInt ts (10 ^ 9)` is `(ts : ℚ) / 10 ^ 9`; see `tsSeconds_eq`). -/
def tsSeconds (ts : ℕ) : ℚ := Rat.divInt ts (10 ^ 9)

/-- Mutable state of the `while True` export loop. -/
structure LoopState where
  frame_count : ℕ
  timesContent : List Char
  image0Files : List (String × Img)
  image1Files : List (String × Img)
  events : List HEvent
deriving DecidableEq

/-- The `while True` loop of `zed2_to_kitti` (lines 72-100): on a successful
grab, retrieve both views, drop the alpha channel, write both images under
the zero-padded frame index, append the image-reference timestamp in seconds
to `times.txt`, increment the counter; on any other grab result, break. -/
def exportLoop : List GrabStep → LoopState → LoopState
  | [], st => st
  | GrabStep.fail _ :: _, st => { st with events := st.events ++ [HEvent.grabCall] }
  | GrabStep.ok f :: rest, st =>
      let filename_left := fmt06 st.frame_count
      let filename_right := fmt06 st.frame_count
      exportLoop rest {
        frame_count := st.frame_count + 1
        timesContent := st.timesContent ++ fmt9 (tsSeconds f.ts_image_ns) ++ ['\n']
        image0Files := st.image0Files ++ [(filename_left, f.left_data.take 3)]
        image1Files := st.image1Files ++ [(filename_right, f.right_data.take 3)]
        events := st.events ++ [HEvent.grabCall]
      }

/-- The `P0` f-string of line 147 (literal `0.0` / `1.0` entries included). -/
def P0_str (fx_left fy_left cx_left cy_left : ℚ) : List Char :=
  chars "P0: " ++ fmt9 fx_left ++ chars " 0.0 " ++ fmt9 cx_left ++
    chars " 0.0 0.0 " ++ fmt9 fy_left ++ chars " " ++ fmt9 cy_left ++
    chars " 0.0 0.0 0.0 1.0 0.0"

/-- The `P1` f-string of line 150. -/
def P1_str (fx_right fy_right cx_right cy_right tx : ℚ) : List Char :=
  chars "P1: " ++ fmt9 fx_right ++ chars " 0.0 " ++ fmt9 cx_right ++ chars " " ++
    fmt9 tx ++ chars " 0.0 " ++ fmt9 fy_right ++ chars " " ++ fmt9 cy_right ++
    chars " 0.0 0.0 0.0 1.0 0.0"

/-- Shallow embedding of `zed2_to_kitti(input_file, output_dir)`.

Mirrors the source order: derive the output directory, create the image
subdirectories, create (truncate) `times.txt`, open the recording — exiting
with code 1 on failure — read the calibration block into locals, drain the
grab loop, close, then compute `tx = -fx_left * baseline` and write
`calib.txt`. -/
def zed2_to_kitti (input_file : String) (output_dir? : Option String)
    (rec : Recording) : RunOutput :=
  -- If output_dir is not specified, use the input path without extension
  let output_dir := match output_dir? with
    | some d => d
    | none => ⟨splitextRoot input_file.data⟩ ++ "_kitti_dataset"
  -- os.makedirs(..., exist_ok=True) for both image directories
  let image_0_dir := pathJoin output_dir "image_0"
  let image_1_dir := pathJoin output_dir "image_1"
  let dirs := [image_0_dir, image_1_dir]
  -- times_file = open(os.path.join(output_dir, "times.txt"), 'w')
  match rec.openStatus with
  | ErrorCode.FAILURE _ =>
      -- print(...); sys.exit(1)
      { exitCode := 1, outputDir := output_dir, dirsCreated := dirs,
        timesTxt := some [], calibTxt := none,
        image0Files := [], image1Files := [], exportedCount := 0,
        events := [HEvent.openCall] }
  | ErrorCode.SUCCESS =>
      -- four get_camera_information() calls (lines 54-58), read while open
      let left_cam_params := rec.calib.left_cam
      let right_cam_params := rec.calib.right_cam
      let calibration_params := rec.calib
      let baseline := calibration_params.translation.1
      let st := exportLoop rec.grabs
        { frame_count := 0, timesContent := [], image0Files := [],
          image1Files := [],
          events := [HEvent.openCall, HEvent.calibRead, HEvent.calibRead,
                     HEvent.calibRead, HEvent.calibRead] }
      -- times_file.close(); zed.close()
      let fx_left := left_cam_params.fx
      let fy_left := left_cam_params.fy
      let cx_left := left_cam_params.cx
      let cy_left := left_cam_params.cy
      let fx_right := right_cam_params.fx
      let fy_right := right_cam_params.fy
      let cx_right := right_cam_params.cx
      let cy_right := right_cam_params.cy
      let tx := -fx_left * baseline
      let P0 := P0_str fx_left fy_left cx_left cy_left
      let P1 := P1_str fx_right fy_right cx_right cy_right tx
      { exitCode := 0, outputDir := output_dir, dirsCreated := dirs,
        timesTxt := some st.timesContent,
        calibTxt := some (P0 ++ ['\n'] ++ P1 ++ ['\n']),
        image0Files := st.image0Files, image1Files := st.image1Files,
        exportedCount := st.frame_count,
        events := st.events ++ [HEvent.closeCall] }

/-! ## Concrete sample data for smoke tests, counterexamples and witnesses -/

/-- The frames the loop exports: the longest prefix of successful grabs. -/
def grabbedFrames : List GrabStep → List Frame
  | [] => []
  | GrabStep.fail _ :: _ => []
  | GrabStep.ok f :: rest => f :: grabbedFrames rest

/-- How many times `zed.grab` is called before the loop ends (the failing
grab included, when the stream reaches one). -/
def grabCallCount : List GrabStep → ℕ
  | [] => 0
  | GrabStep.fail _ :: _ => 1
  | GrabStep.ok _ :: rest => grabCallCount rest + 1

/-- `times.txt` content produced for a list of exported frames. -/
def timesFrom : List Frame → List Char
  | [] => []
  | f :: fs => fmt9 (tsSeconds f.ts_image_ns) ++ '\n' :: timesFrom fs

/-- Image files produced for a list of exported frames, counting from `n`. -/
def imagesFrom (side : Frame → Img) (n : ℕ) : List Frame → List (String × Img)
  | [] => []
  | f :: fs => (fmt06 n, (side f).take 3) :: imagesFrom side (n + 1) fs

/-- A default frame, for `getD`. -/
def frame0 : Frame := ⟨[], [], 0, 0⟩

/-- Join tokens with a separator character. -/
def joinWith (c : Char) : List (List Char) → List Char
  | [] => []
  | [t] => t
  | t :: ts => t ++ c :: joinWith c ts

/-- The 13 space-separated tokens of the `P0` f-string. -/
def tokensP0 (fx_left fy_left cx_left cy_left : ℚ) : List (List Char) :=
  [chars "P0:", fmt9 fx_left, chars "0.0", fmt9 cx_left, chars "0.0",
   chars "0.0", fmt9 fy_left, fmt9 cy_left, chars "0.0", chars "0.0",
   chars "0.0", chars "1.0", chars "0.0"]

/-- The 13 space-separated tokens of the `P1` f-string. -/
def tokensP1 (fx_right fy_right cx_right cy_right tx : ℚ) : List (List Char) :=
  [chars "P1:", fmt9 fx_right, chars "0.0", fmt9 cx_right, fmt9 tx,
   chars "0.0", fmt9 fy_right, fmt9 cy_right, chars "0.0", chars "0.0",
   chars "0.0", chars "1.0", chars "0.0"]

/-- Abbreviation for the `P0` line a run writes for calibration block `c`. -/
def P0_of (c : CalibrationParameters) : List Char :=
  P0_str c.left_cam.fx c.left_cam.fy c.left_cam.cx c.left_cam.cy

/-- Abbreviation for the `P1` line a run writes for calibration block `c`
(`tx = -fx_left * baseline`). -/
def P1_of (c : CalibrationParameters) : List Char :=
  P1_str c.right_cam.fx c.right_cam.fy c.right_cam.cx c.right_cam.cy
    (-(c.left_cam.fx) * c.translation.1)


def camDemoL : CamParams := ⟨700, 701, 320, 240⟩

def camDemoR : CamParams := ⟨702, 703, 321, 241⟩

def calibDemo : CalibrationParameters := ⟨camDemoL, camDemoR, (2, 0, 0)⟩

def frameDemo : Frame := ⟨[1, 2, 3, 4], [5, 6, 7, 8], 1234567891, 999⟩

def recDemo : Recording :=
  ⟨ErrorCode.SUCCESS, calibDemo, [GrabStep.ok frameDemo, GrabStep.fail 2]⟩

/-- The calibration block used in concrete counterexamples and witnesses. -/
def calibC3 : CalibrationParameters :=
  ⟨⟨700, 701, 320, 240⟩, camDemoR, (12 / 100, 0, 0)⟩

example : natDigs 84 = ['8', '4'] := by decide
example : fmt06 3 = "000003" := by decide
example : fmt9 (-84) = chars "-84.000000000" := by decide
example : fmt9 (1234567891/1000) = chars "1234567.891000000" := by
  with_unfolding_all decide
example : fmt9 ((700 : ℚ) * 3) = chars "2100.000000000" := by
  with_unfolding_all decide
example : splitChar ' ' (chars "a bc  d") = [chars "a", chars "bc", [], chars "d"] := by decide
example : fileLines (chars "x\ny\n") = [chars "x", chars "y"] := by decide
example : decimalsOf (chars "0.0") = 1 := by decide

example : (zed2_to_kitti "/data/run1.svo" none recDemo).outputDir
    = "/data/run1_kitti_dataset" := by decide

example : (zed2_to_kitti "/data/run1.svo" none recDemo).dirsCreated
    = ["/data/run1_kitti_dataset/image_0", "/data/run1_kitti_dataset/image_1"] := by
  decide

example : (zed2_to_kitti "/data/run1.svo" none recDemo).timesTxt
    = some (chars "1.234567891\n") := by decide

example : (zed2_to_kitti "/data/run1.svo" none recDemo).image0Files
    = [("000000", [1, 2, 3])] := by decide

example : (zed2_to_kitti "/data/run1.svo" none recDemo).calibTxt
    = some (chars ("P0: 700.000000000 0.0 320.000000000 0.0 0.0 701.000000000 240.000000000 0.0 0.0 0.0 1.0 0.0\n"
        ++ "P1: 702.000000000 0.0 321.000000000 -1400.000000000 0.0 703.000000000 241.000000000 0.0 0.0 0.0 1.0 0.0\n")) := by
  with_unfolding_all decide

example : (zed2_to_kitti "/data/run1.svo" none recDemo).events
    = [HEvent.openCall, HEvent.calibRead, HEvent.calibRead, HEvent.calibRead,
       HEvent.calibRead, HEvent.grabCall, HEvent.grabCall, HEvent.closeCall] := by
  decide

example : (zed2_to_kitti "/x/y.svo" (some "/out") ⟨ErrorCode.FAILURE 7, calibDemo, []⟩)
    = { exitCode := 1, outputDir := "/out",
        dirsCreated := ["/out/image_0", "/out/image_1"],
        timesTxt := some [], calibTxt := none,
        image0Files := [], image1Files := [], exportedCount := 0,
        events := [HEvent.openCall] } := by decide


/-! ## Character-level lemmas about the formatting primitives -/

lemma digitChar_isDigit {d : ℕ} (h : d < 10) : (digitChar d).isDigit = true := by
  interval_cases d <;> decide

lemma natDigsAux_digits :
    ∀ fuel n, n < fuel → ∀ c ∈ natDigsAux fuel n, c.isDigit = true := by
  intro fuel
  induction fuel with
  | zero => intro n h; omega
  | succ fuel ih =>
      intro n h c hc
      by_cases h10 : n < 10
      · simp only [natDigsAux, if_pos h10, List.mem_singleton] at hc
        exact hc ▸ digitChar_isDigit h10
      · simp only [natDigsAux, if_neg h10, List.mem_append, List.mem_singleton] at hc
        rcases hc with hc | hc
        · have hdiv : n / 10 < n := Nat.div_lt_self (by omega) (by norm_num)
          exact ih (n / 10) (by omega) c hc
        · exact hc ▸ digitChar_isDigit (Nat.mod_lt n (by norm_num))

lemma natDigs_digits (n : ℕ) : ∀ c ∈ natDigs n, c.isDigit = true :=
  natDigsAux_digits (n + 1) n (Nat.lt_succ_self n)

lemma natDigsAux_ne_nil : ∀ fuel n, n < fuel → natDigsAux fuel n ≠ [] := by
  intro fuel n h
  cases fuel with
  | zero => omega
  | succ fuel =>
      by_cases h10 : n < 10
      · simp [natDigsAux, if_pos h10]
      · simp [natDigsAux, if_neg h10]

lemma natDigs_ne_nil (n : ℕ) : natDigs n ≠ [] :=
  natDigsAux_ne_nil (n + 1) n (Nat.lt_succ_self n)

lemma natDigsAux_length :
    ∀ fuel n k, n < fuel → n < 10 ^ k → 1 ≤ k →
      (natDigsAux fuel n).length ≤ k := by
  intro fuel
  induction fuel with
  | zero => intro n k h; omega
  | succ fuel ih =>
      intro n k h hk h1
      by_cases h10 : n < 10
      · simp [natDigsAux, if_pos h10]; omega
      · have hk2 : 2 ≤ k := by
          by_contra hlt
          have : k = 1 := by omega
          subst this
          simp at hk
          omega
        have hdiv : n / 10 < n := Nat.div_lt_self (by omega) (by norm_num)
        have hpow : 10 ^ k = 10 ^ (k - 1) * 10 := by
          conv_lhs => rw [show k = (k - 1) + 1 by omega]
          rw [pow_succ]
        have hdivpow : n / 10 < 10 ^ (k - 1) := by
          rw [Nat.div_lt_iff_lt_mul (by norm_num)]
          omega
        have := ih (n / 10) (k - 1) (by omega) hdivpow (by omega)
        simp [natDigsAux, if_neg h10]
        omega

lemma natDigs_length_le {n k : ℕ} (hk : n < 10 ^ k) (h1 : 1 ≤ k) :
    (natDigs n).length ≤ k :=
  natDigsAux_length (n + 1) n k (Nat.lt_succ_self n) hk h1

lemma pad0_length {w : ℕ} {l : List Char} (h : l.length ≤ w) :
    (pad0 w l).length = w := by
  simp [pad0]
  omega

/-! ## `splitChar` and its interaction with separators -/

lemma splitChar_ne_nil (c : Char) (l : List Char) : splitChar c l ≠ [] := by
  induction l with
  | nil => simp [splitChar]
  | cons x xs ih =>
      simp only [splitChar]
      cases hsp : splitChar c xs with
      | nil => simp
      | cons y ys => by_cases hx : x = c <;> simp [hx]

lemma splitChar_of_not_mem {c : Char} {l : List Char} (h : c ∉ l) :
    splitChar c l = [l] := by
  induction l with
  | nil => simp [splitChar]
  | cons x xs ih =>
      have hx : ¬(x = c) := fun h' => h (by simp [h'])
      have hxs : c ∉ xs := fun h' => h (List.mem_cons_of_mem x h')
      simp only [splitChar, ih hxs]
      simp [hx]

lemma splitChar_append {c : Char} (a b : List Char) (h : c ∉ a) :
    splitChar c (a ++ c :: b) = a :: splitChar c b := by
  induction a with
  | nil =>
      cases hsp : splitChar c b with
      | nil => exact absurd hsp (splitChar_ne_nil c b)
      | cons y ys => simp [splitChar, hsp]
  | cons x xs ih =>
      have hx : ¬(x = c) := fun h' => h (by simp [h'])
      have hxs : c ∉ xs := fun h' => h (List.mem_cons_of_mem x h')
      cases hsp : splitChar c (xs ++ c :: b) with
      | nil => exact absurd hsp (splitChar_ne_nil c _)
      | cons y ys =>
          have := ih hxs
          rw [hsp] at this
          cases this
          simp [splitChar, List.cons_append, hsp, hx]

/-! ## Shape of `fmt9` output -/

lemma mem_fmt9 {q : ℚ} {ch : Char} (h : ch ∈ fmt9 q) :
    ch = '-' ∨ ch = '.' ∨ ch.isDigit = true := by
  unfold fmt9 at h
  rcases List.mem_append.mp h with h | h
  · rcases List.mem_append.mp h with h | h
    · split at h
      · simp at h
        exact Or.inl h
      · simp at h
    · exact Or.inr (Or.inr (natDigs_digits _ ch h))
  · rcases List.mem_cons.mp h with h | h
    · exact Or.inr (Or.inl h)
    · rcases List.mem_append.mp (show ch ∈ _ ++ _ from h) with h | h
      · rw [List.mem_replicate] at h
        exact Or.inr (Or.inr (h.2 ▸ (by decide)))
      · exact Or.inr (Or.inr (natDigs_digits _ ch h))

lemma space_not_mem_fmt9 (q : ℚ) : ' ' ∉ fmt9 q := by
  intro h
  rcases mem_fmt9 h with h | h | h
  · exact absurd h (by decide)
  · exact absurd h (by decide)
  · exact absurd h (by decide)

lemma nl_not_mem_fmt9 (q : ℚ) : '\n' ∉ fmt9 q := by
  intro h
  rcases mem_fmt9 h with h | h | h
  · exact absurd h (by decide)
  · exact absurd h (by decide)
  · exact absurd h (by decide)

/-- The fractional block that `fmt9` prints. -/
lemma fmt9_split :
    ∀ q : ℚ, ∃ intPart fracPart : List Char,
      fmt9 q = intPart ++ '.' :: fracPart ∧ '.' ∉ intPart ∧ '.' ∉ fracPart ∧
      fracPart.length = 9 := by
  intro q
  refine ⟨(if scaled9 q < 0 then ['-'] else []) ++
      natDigs ((scaled9 q).natAbs / 10 ^ 9),
    pad0 9 (natDigs ((scaled9 q).natAbs % 10 ^ 9)),
    ?_, ?_, ?_, ?_⟩
  · simp [fmt9]
  · intro h
    rcases List.mem_append.mp h with h | h
    · split at h
      · simp at h
      · simp at h
    · have := natDigs_digits _ _ h
      exact absurd this (by decide)
  · intro h
    rcases List.mem_append.mp h with h | h
    · rw [List.mem_replicate] at h
      exact absurd h.2 (by decide)
    · have := natDigs_digits _ _ h
      exact absurd this (by decide)
  · exact pad0_length (natDigs_length_le
      (Nat.mod_lt _ (by norm_num)) (by norm_num))

lemma decimalsOf_fmt9 (q : ℚ) : decimalsOf (fmt9 q) = 9 := by
  obtain ⟨A, B, hsplit, hA, hB, hlen⟩ := fmt9_split q
  rw [decimalsOf, hsplit, splitChar_append A B hA, splitChar_of_not_mem hB]
  exact hlen

/-! ## Lines of a text file -/

lemma fileLines_nil : fileLines [] = [] := by decide

lemma fileLines_append_line {line rest : List Char} (h : '\n' ∉ line) :
    fileLines (line ++ '\n' :: rest) = line :: fileLines rest := by
  unfold fileLines
  rw [splitChar_append _ _ h]
  exact List.dropLast_cons_of_ne_nil (splitChar_ne_nil _ _)

/-! ## Characterising the export loop -/

lemma exportLoop_eq (gs : List GrabStep) (st : LoopState) :
    exportLoop gs st =
      { frame_count := st.frame_count + (grabbedFrames gs).length,
        timesContent := st.timesContent ++ timesFrom (grabbedFrames gs),
        image0Files := st.image0Files ++
          imagesFrom Frame.left_data st.frame_count (grabbedFrames gs),
        image1Files := st.image1Files ++
          imagesFrom Frame.right_data st.frame_count (grabbedFrames gs),
        events := st.events ++ List.replicate (grabCallCount gs) HEvent.grabCall } := by
  induction gs generalizing st with
  | nil => simp [exportLoop, grabbedFrames, grabCallCount, timesFrom, imagesFrom]
  | cons s rest ih =>
      cases s with
      | fail code =>
          simp [exportLoop, grabbedFrames, grabCallCount, timesFrom, imagesFrom]
      | ok f =>
          rw [exportLoop, ih]
          simp [grabbedFrames, grabCallCount, timesFrom, imagesFrom,
            List.replicate_succ, List.append_assoc, LoopState.mk.injEq]
          all_goals omega

lemma fileLines_timesFrom (fs : List Frame) :
    fileLines (timesFrom fs) = fs.map (fun f => fmt9 (tsSeconds f.ts_image_ns)) := by
  induction fs with
  | nil => simp [timesFrom, fileLines_nil]
  | cons f fs ih =>
      rw [timesFrom, fileLines_append_line (nl_not_mem_fmt9 _), ih]
      simp

lemma imagesFrom_length (side : Frame → Img) (n : ℕ) (fs : List Frame) :
    (imagesFrom side n fs).length = fs.length := by
  induction fs generalizing n with
  | nil => simp [imagesFrom]
  | cons f fs ih => simp [imagesFrom, ih]

lemma imagesFrom_map_fst (side : Frame → Img) (n : ℕ) (fs : List Frame) :
    (imagesFrom side n fs).map Prod.fst =
      (List.range fs.length).map (fun i => fmt06 (n + i)) := by
  induction fs generalizing n with
  | nil => simp [imagesFrom]
  | cons f fs ih =>
      simp only [imagesFrom, List.length_cons, List.range_succ_eq_map,
        List.map_cons, List.map_map, ih]
      congr 1
      refine List.map_congr_left fun a _ => ?_
      simp only [Function.comp_apply]
      exact congrArg fmt06 (by omega)

lemma imagesFrom_getD (side : Frame → Img) (fs : List Frame) :
    ∀ n N, N < fs.length → ∀ d,
      (imagesFrom side n fs).getD N d =
        (fmt06 (n + N), (side (fs.getD N frame0)).take 3) := by
  induction fs with
  | nil => intro n N h; exact absurd h (by simp)
  | cons f fs ih =>
      intro n N h d
      cases N with
      | zero => simp [imagesFrom]
      | succ N =>
          simp only [imagesFrom, List.getD_cons_succ]
          rw [ih (n + 1) N (by simpa using h) d]
          exact congrArg (fun m => (fmt06 m, (side (fs.getD N frame0)).take 3))
            (by omega)

lemma getD_map_of_lt {α β : Type} (g : α → β) (l : List α) :
    ∀ N, N < l.length → ∀ (d : β) (da : α),
      (l.map g).getD N d = g (l.getD N da) := by
  induction l with
  | nil => intro N h; exact absurd h (by simp)
  | cons a l ih =>
      intro N h d da
      cases N with
      | zero => simp
      | succ N => simpa using ih N (by simpa using h) d da

/-- `Rat.divInt ts (10 ^ 9)` is exactly nanoseconds over `10 ^ 9`. -/
lemma tsSeconds_eq (ts : ℕ) : tsSeconds ts = (ts : ℚ) / 10 ^ 9 := by
  rw [tsSeconds, Rat.divInt_eq_div]
  push_cast
  ring

/-! ## Token structure of the calibration lines -/

lemma splitChar_joinWith (c : Char) :
    ∀ ts : List (List Char), (∀ t ∈ ts, c ∉ t) → ts ≠ [] →
      splitChar c (joinWith c ts) = ts := by
  intro ts
  induction ts with
  | nil => intro _ hne; exact absurd rfl hne
  | cons t ts ih =>
      intro h _
      cases ts with
      | nil => exact splitChar_of_not_mem (h t (List.mem_singleton_self t))
      | cons u us =>
          rw [show joinWith c (t :: u :: us) = t ++ c :: joinWith c (u :: us)
              from rfl,
            splitChar_append _ _ (h t (List.mem_cons_self t _)),
            ih (fun x hx => h x (List.mem_cons_of_mem t hx)) (by simp)]

lemma mem_joinWith {c ch : Char} :
    ∀ ts : List (List Char), ch ∈ joinWith c ts →
      ch = c ∨ ∃ t ∈ ts, ch ∈ t := by
  intro ts
  induction ts with
  | nil => intro h; simp [joinWith] at h
  | cons t ts ih =>
      intro h
      cases ts with
      | nil =>
          exact Or.inr ⟨t, List.mem_singleton_self t, h⟩
      | cons u us =>
          rw [show joinWith c (t :: u :: us) = t ++ c :: joinWith c (u :: us)
              from rfl] at h
          rcases List.mem_append.mp h with h | h
          · exact Or.inr ⟨t, List.mem_cons_self t _, h⟩
          · rcases List.mem_cons.mp h with h | h
            · exact Or.inl h
            · rcases ih h with h | ⟨x, hx, hch⟩
              · exact Or.inl h
              · exact Or.inr ⟨x, List.mem_cons_of_mem t hx, hch⟩

lemma chars_P0sp : chars "P0: " = 'P' :: '0' :: ':' :: ' ' :: [] := rfl

lemma chars_P1sp : chars "P1: " = 'P' :: '1' :: ':' :: ' ' :: [] := rfl

lemma chars_P0 : chars "P0:" = 'P' :: '0' :: ':' :: [] := rfl

lemma chars_P1 : chars "P1:" = 'P' :: '1' :: ':' :: [] := rfl

lemma chars_z : chars "0.0" = '0' :: '.' :: '0' :: [] := rfl

lemma chars_one : chars "1.0" = '1' :: '.' :: '0' :: [] := rfl

lemma chars_spzsp : chars " 0.0 " = ' ' :: '0' :: '.' :: '0' :: ' ' :: [] := rfl

lemma chars_spzzsp :
    chars " 0.0 0.0 " =
      ' ' :: '0' :: '.' :: '0' :: ' ' :: '0' :: '.' :: '0' :: ' ' :: [] := rfl

lemma chars_sp : chars " " = ' ' :: [] := rfl

lemma chars_spz : chars " 0.0 " = chars " " ++ chars "0.0" ++ chars " " := rfl

lemma chars_trail :
    chars " 0.0 0.0 0.0 1.0 0.0" =
      ' ' :: '0' :: '.' :: '0' :: ' ' :: '0' :: '.' :: '0' :: ' ' ::
      '0' :: '.' :: '0' :: ' ' :: '1' :: '.' :: '0' :: ' ' ::
      '0' :: '.' :: '0' :: [] := rfl

lemma P0_str_eq_joinWith (fx fy cx cy : ℚ) :
    P0_str fx fy cx cy = joinWith ' ' (tokensP0 fx fy cx cy) := by
  simp only [P0_str, tokensP0, joinWith, chars_P0sp, chars_P0, chars_z,
    chars_one, chars_spzsp, chars_spzzsp, chars_sp, chars_trail,
    List.append_assoc, List.cons_append, List.nil_append]

lemma P1_str_eq_joinWith (fx fy cx cy tx : ℚ) :
    P1_str fx fy cx cy tx = joinWith ' ' (tokensP1 fx fy cx cy tx) := by
  simp only [P1_str, tokensP1, joinWith, chars_P1sp, chars_P1, chars_z,
    chars_one, chars_spzsp, chars_spzzsp, chars_sp, chars_trail,
    List.append_assoc, List.cons_append, List.nil_append]

lemma P0_tokens (fx fy cx cy : ℚ) :
    splitChar ' ' (P0_str fx fy cx cy) = tokensP0 fx fy cx cy := by
  rw [P0_str_eq_joinWith]
  refine splitChar_joinWith ' ' _ ?_ (by simp [tokensP0])
  intro t ht
  simp only [tokensP0, List.mem_cons, List.not_mem_nil, or_false] at ht
  rcases ht with rfl | rfl | rfl | rfl | rfl | rfl | rfl | rfl | rfl | rfl |
    rfl | rfl | rfl <;>
    first
      | exact space_not_mem_fmt9 _
      | decide

lemma P1_tokens (fx fy cx cy tx : ℚ) :
    splitChar ' ' (P1_str fx fy cx cy tx) = tokensP1 fx fy cx cy tx := by
  rw [P1_str_eq_joinWith]
  refine splitChar_joinWith ' ' _ ?_ (by simp [tokensP1])
  intro t ht
  simp only [tokensP1, List.mem_cons, List.not_mem_nil, or_false] at ht
  rcases ht with rfl | rfl | rfl | rfl | rfl | rfl | rfl | rfl | rfl | rfl |
    rfl | rfl | rfl <;>
    first
      | exact space_not_mem_fmt9 _
      | decide

lemma nl_not_mem_P0 (fx fy cx cy : ℚ) : '\n' ∉ P0_str fx fy cx cy := by
  rw [P0_str_eq_joinWith]
  intro h
  rcases mem_joinWith _ h with h | ⟨t, ht, hch⟩
  · exact absurd h (by decide)
  · simp only [tokensP0, List.mem_cons, List.not_mem_nil, or_false] at ht
    rcases ht with rfl | rfl | rfl | rfl | rfl | rfl | rfl | rfl | rfl | rfl |
      rfl | rfl | rfl <;>
      first
        | exact nl_not_mem_fmt9 _ hch
        | exact absurd hch (by decide)

lemma nl_not_mem_P1 (fx fy cx cy tx : ℚ) : '\n' ∉ P1_str fx fy cx cy tx := by
  rw [P1_str_eq_joinWith]
  intro h
  rcases mem_joinWith _ h with h | ⟨t, ht, hch⟩
  · exact absurd h (by decide)
  · simp only [tokensP1, List.mem_cons, List.not_mem_nil, or_false] at ht
    rcases ht with rfl | rfl | rfl | rfl | rfl | rfl | rfl | rfl | rfl | rfl |
      rfl | rfl | rfl <;>
      first
        | exact nl_not_mem_fmt9 _ hch
        | exact absurd hch (by decide)

lemma fileLines_two (P0 P1 : List Char) (h0 : '\n' ∉ P0) (h1 : '\n' ∉ P1) :
    fileLines (P0 ++ ['\n'] ++ P1 ++ ['\n']) = [P0, P1] := by
  have hshape : P0 ++ ['\n'] ++ P1 ++ ['\n'] = P0 ++ '\n' :: (P1 ++ '\n' :: []) := by
    simp
  rw [hshape, fileLines_append_line h0, fileLines_append_line h1, fileLines_nil]
example : decimalsOf (fmt9 (7/2)) = 9 := by with_unfolding_all decide

/-! ## Run-level lemmas: the success path, field by field -/

lemma success_timesTxt (i : String) (o : Option String)
    (c : CalibrationParameters) (gs : List GrabStep) :
    (zed2_to_kitti i o ⟨ErrorCode.SUCCESS, c, gs⟩).timesTxt =
      some (timesFrom (grabbedFrames gs)) := by
  simp [zed2_to_kitti, exportLoop_eq]

lemma success_calibTxt (i : String) (o : Option String)
    (c : CalibrationParameters) (gs : List GrabStep) :
    (zed2_to_kitti i o ⟨ErrorCode.SUCCESS, c, gs⟩).calibTxt =
      some (P0_of c ++ ['\n'] ++ P1_of c ++ ['\n']) := by
  simp [zed2_to_kitti, P0_of, P1_of]

lemma success_image0 (i : String) (o : Option String)
    (c : CalibrationParameters) (gs : List GrabStep) :
    (zed2_to_kitti i o ⟨ErrorCode.SUCCESS, c, gs⟩).image0Files =
      imagesFrom Frame.left_data 0 (grabbedFrames gs) := by
  simp [zed2_to_kitti, exportLoop_eq]

lemma success_image1 (i : String) (o : Option String)
    (c : CalibrationParameters) (gs : List GrabStep) :
    (zed2_to_kitti i o ⟨ErrorCode.SUCCESS, c, gs⟩).image1Files =
      imagesFrom Frame.right_data 0 (grabbedFrames gs) := by
  simp [zed2_to_kitti, exportLoop_eq]

lemma success_exportedCount (i : String) (o : Option String)
    (c : CalibrationParameters) (gs : List GrabStep) :
    (zed2_to_kitti i o ⟨ErrorCode.SUCCESS, c, gs⟩).exportedCount =
      (grabbedFrames gs).length := by
  simp [zed2_to_kitti, exportLoop_eq]

lemma success_events (i : String) (o : Option String)
    (c : CalibrationParameters) (gs : List GrabStep) :
    (zed2_to_kitti i o ⟨ErrorCode.SUCCESS, c, gs⟩).events =
      HEvent.openCall :: List.replicate 4 HEvent.calibRead ++
        List.replicate (grabCallCount gs) HEvent.grabCall ++
        [HEvent.closeCall] := by
  simp [zed2_to_kitti, exportLoop_eq, List.replicate]

/-- The two lines of `calib.txt` on any successful run. -/
lemma success_calib_lines (i : String) (o : Option String)
    (c : CalibrationParameters) (gs : List GrabStep) :
    fileLines (((zed2_to_kitti i o ⟨ErrorCode.SUCCESS, c, gs⟩).calibTxt).getD []) =
      [P0_of c, P1_of c] := by
  rw [success_calibTxt, Option.getD_some]
  exact fileLines_two _ _ (nl_not_mem_P0 _ _ _ _) (nl_not_mem_P1 _ _ _ _ _)

/-! ## Loop-shape and trace support lemmas -/

lemma grabbedFrames_ok_append (pre : List Frame) (rest : List GrabStep) :
    grabbedFrames (pre.map GrabStep.ok ++ rest) = pre ++ grabbedFrames rest := by
  induction pre with
  | nil => simp
  | cons f pre ih => simp [grabbedFrames, ih]

lemma grabCallCount_ok_append (pre : List Frame) (rest : List GrabStep) :
    grabCallCount (pre.map GrabStep.ok ++ rest) =
      pre.length + grabCallCount rest := by
  induction pre with
  | nil => simp
  | cons f pre ih =>
      simp [grabCallCount, ih]
      omega

lemma suffix_nil_of_concat_eq {α : Type} {a : α} :
    ∀ A l1 l2 : List α, a ∉ A → A ++ [a] = l1 ++ a :: l2 → l2 = [] := by
  intro A
  induction A with
  | nil =>
      intro l1 l2 _ h
      have hlen := congrArg List.length h
      simp at hlen
      have hz : l2.length = 0 := by omega
      exact List.eq_nil_of_length_eq_zero hz
  | cons x A ih =>
      intro l1 l2 hA h
      cases l1 with
      | nil =>
          simp only [List.nil_append, List.cons_append] at h
          injection h with h1 h2
          exact absurd (show a ∈ x :: A by rw [← h1]; exact List.mem_cons_self x A) hA
      | cons y l1 =>
          simp only [List.cons_append] at h
          injection h with h1 h2
          exact ih l1 l2 (fun hm => hA (List.mem_cons_of_mem x hm)) h2

/-! ## The claims -/

/-- C1, counterexample: the claim says that when opening the recording fails
no `times.txt` and no image subdirectories have been created, but at the
concrete failing run the exit code is 1 while `times.txt` exists (empty) and
both image directories have been created — `open(..., 'w')` and
`os.makedirs` run before `zed.open` in the source. -/
theorem c1_counterexample :
    (zed2_to_kitti "/data/run1.svo" none
        ⟨ErrorCode.FAILURE 2, calibDemo, []⟩).exitCode = 1 ∧
    (zed2_to_kitti "/data/run1.svo" none
        ⟨ErrorCode.FAILURE 2, calibDemo, []⟩).timesTxt ≠ none ∧
    (zed2_to_kitti "/data/run1.svo" none
        ⟨ErrorCode.FAILURE 2, calibDemo, []⟩).dirsCreated ≠ [] := by
  decide

/-- C1, amended: if opening the input recording fails, the program exits
with code 1 and at that point no `calib.txt` exists and no image files or
timestamp lines have been written — but the `image_0`/`image_1`
subdirectories have already been created and `times.txt` already exists as
an empty file, because both happen before `zed.open` is attempted. -/
theorem c1_amended (i : String) (o : Option String) (c : CalibrationParameters)
    (gs : List GrabStep) (code : ℕ) :
    (zed2_to_kitti i o ⟨ErrorCode.FAILURE code, c, gs⟩).exitCode = 1 ∧
    (zed2_to_kitti i o ⟨ErrorCode.FAILURE code, c, gs⟩).calibTxt = none ∧
    (zed2_to_kitti i o ⟨ErrorCode.FAILURE code, c, gs⟩).image0Files = [] ∧
    (zed2_to_kitti i o ⟨ErrorCode.FAILURE code, c, gs⟩).image1Files = [] ∧
    (zed2_to_kitti i o ⟨ErrorCode.FAILURE code, c, gs⟩).timesTxt = some [] ∧
    (zed2_to_kitti i o ⟨ErrorCode.FAILURE code, c, gs⟩).dirsCreated =
      [pathJoin (zed2_to_kitti i o ⟨ErrorCode.FAILURE code, c, gs⟩).outputDir
        "image_0",
       pathJoin (zed2_to_kitti i o ⟨ErrorCode.FAILURE code, c, gs⟩).outputDir
        "image_1"] := by
  cases o <;> simp [zed2_to_kitti]

/-- C2, counterexample: the claim says every one of the 12 values on each
`calib.txt` line carries exactly 9 digits after the decimal point, but on
the concrete run the second value of the `P0` line is the literal `0.0`
(one digit after the decimal point), because the constant matrix entries
are written as the literals `0.0`/`1.0` in the f-string, not via `:.9f`. -/
theorem c2_counterexample :
    (splitChar ' '
        ((fileLines ((zed2_to_kitti "/data/run1.svo" none
            recDemo).calibTxt.getD [])).getD 0 [])).getD 2 [] = chars "0.0" ∧
    decimalsOf (chars "0.0") ≠ 9 := by
  with_unfolding_all decide

/-- C2, amended: on every run reaching the calibration writer, `calib.txt`
has exactly 2 lines; line 1 is the label `P0:` followed by 12 space-separated
values and line 2 the label `P1:` followed by 12 space-separated values; the
values derived from the calibration block (`fx cx fy cy` and, on `P1`, `tx`)
are formatted with exactly 9 digits after the decimal point, while the
constant matrix entries are the literals `0.0` and `1.0` (one digit after
the decimal point). -/
theorem c2_amended (i : String) (o : Option String) (c : CalibrationParameters)
    (gs : List GrabStep) :
    (fileLines ((zed2_to_kitti i o
        ⟨ErrorCode.SUCCESS, c, gs⟩).calibTxt.getD [])).length = 2 ∧
    splitChar ' ' ((fileLines ((zed2_to_kitti i o
        ⟨ErrorCode.SUCCESS, c, gs⟩).calibTxt.getD [])).getD 0 []) =
      tokensP0 c.left_cam.fx c.left_cam.fy c.left_cam.cx c.left_cam.cy ∧
    splitChar ' ' ((fileLines ((zed2_to_kitti i o
        ⟨ErrorCode.SUCCESS, c, gs⟩).calibTxt.getD [])).getD 1 []) =
      tokensP1 c.right_cam.fx c.right_cam.fy c.right_cam.cx c.right_cam.cy
        (-(c.left_cam.fx) * c.translation.1) ∧
    (∀ fx fy cx cy : ℚ, (tokensP0 fx fy cx cy).length = 13) ∧
    (∀ fx fy cx cy tx : ℚ, (tokensP1 fx fy cx cy tx).length = 13) ∧
    (∀ q : ℚ, decimalsOf (fmt9 q) = 9) ∧
    decimalsOf (chars "0.0") = 1 ∧ decimalsOf (chars "1.0") = 1 := by
  refine ⟨?_, ?_, ?_, ?_, ?_, ?_, by decide, by decide⟩
  · rw [success_calib_lines]
    rfl
  · rw [success_calib_lines]
    exact P0_tokens _ _ _ _
  · rw [success_calib_lines]
    exact P1_tokens _ _ _ _ _
  · intro fx fy cx cy
    rfl
  · intro fx fy cx cy tx
    rfl
  · exact decimalsOf_fmt9

/-- C3: for every calibration block the derived translation
`tx = -fx_left * baseline` is the value written as the 4th of the 12 values
on the `P1` line (token index 4, after the `P1:` label), and in particular
for `fx_left = 700` and `baseline = 0.12` it is rendered `-84.000000000`. -/
theorem c3_tx_value (i : String) (o : Option String)
    (c : CalibrationParameters) (gs : List GrabStep) :
    (splitChar ' ' ((fileLines ((zed2_to_kitti i o
        ⟨ErrorCode.SUCCESS, c, gs⟩).calibTxt.getD [])).getD 1 [])).getD 4 [] =
      fmt9 (-(c.left_cam.fx) * c.translation.1) ∧
    (c.left_cam.fx = 700 → c.translation.1 = 12 / 100 →
      (splitChar ' ' ((fileLines ((zed2_to_kitti i o
          ⟨ErrorCode.SUCCESS, c, gs⟩).calibTxt.getD [])).getD 1 [])).getD 4 [] =
        chars "-84.000000000") := by
  have htok : (splitChar ' ' ((fileLines ((zed2_to_kitti i o
      ⟨ErrorCode.SUCCESS, c, gs⟩).calibTxt.getD [])).getD 1 [])).getD 4 [] =
      fmt9 (-(c.left_cam.fx) * c.translation.1) := by
    rw [success_calib_lines]
    show (splitChar ' ' (P1_of c)).getD 4 [] = _
    rw [P1_of, P1_tokens]
    rfl
  refine ⟨htok, fun hfx hb => ?_⟩
  rw [htok, hfx, hb]
  with_unfolding_all decide

/-- C3 witness: the theorem applied at a concrete calibration block with
`fx_left = 700` and `baseline = 0.12`. -/
theorem c3_tx_value_witness :
    (splitChar ' ' ((fileLines ((zed2_to_kitti "/data/run1.svo" none
        ⟨ErrorCode.SUCCESS, calibC3, []⟩).calibTxt.getD [])).getD 1 [])).getD 4 [] =
      chars "-84.000000000" :=
  (c3_tx_value "/data/run1.svo" none calibC3 []).2 rfl rfl

/-- C4: when `--output_dir` is omitted the output directory is the input
path with its extension removed (`os.path.splitext`) and `_kitti_dataset`
appended; when it is given, it is used unchanged; in particular
`/data/run1.svo` yields `/data/run1_kitti_dataset`. -/
theorem c4_output_dir (i d : String) (rec : Recording) :
    (zed2_to_kitti i none rec).outputDir =
      (⟨splitextRoot i.data⟩ : String) ++ "_kitti_dataset" ∧
    (zed2_to_kitti i (some d) rec).outputDir = d ∧
    (zed2_to_kitti "/data/run1.svo" none rec).outputDir =
      "/data/run1_kitti_dataset" := by
  obtain ⟨st, c, gs⟩ := rec
  refine ⟨?_, ?_, ?_⟩
  · cases st <;> simp [zed2_to_kitti]
  · cases st <;> simp [zed2_to_kitti]
  · cases st <;>
      · simp [zed2_to_kitti]
        decide

/-- C5: a recording yielding exactly `K` successful grabs produces `K`
lines in `times.txt` and `K` image files in each of `image_0`/`image_1`,
named `000000` .. `K-1` zero-padded to six digits, and for every
`N < K` the `N`-th timestamp line and the two files named `{N:06d}` all come
from the `N`-th grabbed frame. -/
theorem c5_dataset_shape (i : String) (o : Option String)
    (c : CalibrationParameters) (gs : List GrabStep) (K : ℕ)
    (hK : (grabbedFrames gs).length = K) :
    (fileLines ((zed2_to_kitti i o
        ⟨ErrorCode.SUCCESS, c, gs⟩).timesTxt.getD [])).length = K ∧
    (zed2_to_kitti i o ⟨ErrorCode.SUCCESS, c, gs⟩).image0Files.length = K ∧
    (zed2_to_kitti i o ⟨ErrorCode.SUCCESS, c, gs⟩).image1Files.length = K ∧
    (zed2_to_kitti i o ⟨ErrorCode.SUCCESS, c, gs⟩).image0Files.map Prod.fst =
      (List.range K).map fmt06 ∧
    (zed2_to_kitti i o ⟨ErrorCode.SUCCESS, c, gs⟩).image1Files.map Prod.fst =
      (List.range K).map fmt06 ∧
    (∀ N, N < K →
      (fileLines ((zed2_to_kitti i o
          ⟨ErrorCode.SUCCESS, c, gs⟩).timesTxt.getD [])).getD N [] =
        fmt9 (tsSeconds ((grabbedFrames gs).getD N frame0).ts_image_ns) ∧
      (zed2_to_kitti i o ⟨ErrorCode.SUCCESS, c, gs⟩).image0Files.getD N ("", []) =
        (fmt06 N, ((grabbedFrames gs).getD N frame0).left_data.take 3) ∧
      (zed2_to_kitti i o ⟨ErrorCode.SUCCESS, c, gs⟩).image1Files.getD N ("", []) =
        (fmt06 N, ((grabbedFrames gs).getD N frame0).right_data.take 3)) := by
  subst hK
  have hmap : ∀ side : Frame → Img,
      (imagesFrom side 0 (grabbedFrames gs)).map Prod.fst =
        (List.range (grabbedFrames gs).length).map fmt06 := by
    intro side
    rw [imagesFrom_map_fst]
    exact List.map_congr_left fun a _ => by rw [Nat.zero_add]
  refine ⟨?_, ?_, ?_, ?_, ?_, ?_⟩
  · rw [success_timesTxt, Option.getD_some, fileLines_timesFrom,
        List.length_map]
  · rw [success_image0, imagesFrom_length]
  · rw [success_image1, imagesFrom_length]
  · rw [success_image0, hmap]
  · rw [success_image1, hmap]
  · intro N hN
    refine ⟨?_, ?_, ?_⟩
    · rw [success_timesTxt, Option.getD_some, fileLines_timesFrom,
          getD_map_of_lt _ _ N hN [] frame0]
    · rw [success_image0, imagesFrom_getD _ _ 0 N hN, Nat.zero_add]
    · rw [success_image1, imagesFrom_getD _ _ 0 N hN, Nat.zero_add]

/-- C5 witness: the theorem applied to the concrete one-frame recording. -/
theorem c5_dataset_shape_witness :
    (grabbedFrames [GrabStep.ok frameDemo, GrabStep.fail 2]).length = 1 ∧
    (zed2_to_kitti "/data/run1.svo" none
        ⟨ErrorCode.SUCCESS, calibDemo,
          [GrabStep.ok frameDemo, GrabStep.fail 2]⟩).image0Files.length = 1 :=
  ⟨by decide,
    (c5_dataset_shape "/data/run1.svo" none calibDemo
      [GrabStep.ok frameDemo, GrabStep.fail 2] 1 (by decide)).2.1⟩

/-- C6: each successfully grabbed frame contributes one line to
`times.txt`: the timestamp taken with the image-acquisition time reference
(field `ts_image_ns`, not `ts_current_ns`), converted from nanoseconds to
seconds, formatted with 9 digits after the decimal point, followed by a
newline, in frame order. -/
theorem c6_timestamp_lines (i : String) (o : Option String)
    (c : CalibrationParameters) (gs : List GrabStep) :
    (zed2_to_kitti i o ⟨ErrorCode.SUCCESS, c, gs⟩).timesTxt =
      some (timesFrom (grabbedFrames gs)) ∧
    (∀ fs : List Frame, timesFrom fs = match fs with
      | [] => []
      | f :: rest => fmt9 (tsSeconds f.ts_image_ns) ++ '\n' :: timesFrom rest) ∧
    fileLines (timesFrom (grabbedFrames gs)) =
      (grabbedFrames gs).map (fun f => fmt9 (tsSeconds f.ts_image_ns)) ∧
    (∀ ts : ℕ, tsSeconds ts = (ts : ℚ) / 10 ^ 9) :=
  ⟨success_timesTxt i o c gs,
   fun fs => by cases fs <;> rfl,
   fileLines_timesFrom (grabbedFrames gs),
   tsSeconds_eq⟩

/-- C7: the export loop stops at the first non-success grab, with the same
result whatever the failing code is and whatever would follow it (no
distinction between end-of-stream and mid-stream errors, nothing surfaced);
the frames grabbed before the failure are kept, and the frame counter equals
the number of successful grabs. -/
theorem c7_stop_on_first_failure (i : String) (o : Option String)
    (c : CalibrationParameters) (pre : List Frame) (code : ℕ)
    (post : List GrabStep) :
    zed2_to_kitti i o
        ⟨ErrorCode.SUCCESS, c, pre.map GrabStep.ok ++ GrabStep.fail code :: post⟩ =
      zed2_to_kitti i o
        ⟨ErrorCode.SUCCESS, c, pre.map GrabStep.ok ++ [GrabStep.fail 0]⟩ ∧
    (zed2_to_kitti i o
        ⟨ErrorCode.SUCCESS, c,
          pre.map GrabStep.ok ++ GrabStep.fail code :: post⟩).exportedCount =
      pre.length ∧
    (zed2_to_kitti i o
        ⟨ErrorCode.SUCCESS, c,
          pre.map GrabStep.ok ++ GrabStep.fail code :: post⟩).image0Files.length =
      pre.length ∧
    (zed2_to_kitti i o
        ⟨ErrorCode.SUCCESS, c,
          pre.map GrabStep.ok ++ GrabStep.fail code :: post⟩).image1Files.length =
      pre.length ∧
    (fileLines ((zed2_to_kitti i o
        ⟨ErrorCode.SUCCESS, c,
          pre.map GrabStep.ok ++ GrabStep.fail code :: post⟩).timesTxt.getD
        [])).length = pre.length := by
  have h1 : grabbedFrames (pre.map GrabStep.ok ++ GrabStep.fail code :: post) =
      pre := by
    rw [grabbedFrames_ok_append]
    simp [grabbedFrames]
  have h1' : grabbedFrames (pre.map GrabStep.ok ++ [GrabStep.fail 0]) = pre := by
    rw [grabbedFrames_ok_append]
    simp [grabbedFrames]
  have h2 : grabCallCount (pre.map GrabStep.ok ++ GrabStep.fail code :: post) =
      pre.length + 1 := by
    rw [grabCallCount_ok_append]
    simp [grabCallCount]
  have h2' : grabCallCount (pre.map GrabStep.ok ++ [GrabStep.fail 0]) =
      pre.length + 1 := by
    rw [grabCallCount_ok_append]
    simp [grabCallCount]
  refine ⟨?_, ?_, ?_, ?_, ?_⟩
  · simp [zed2_to_kitti, exportLoop_eq, h1, h1', h2, h2']
  · rw [success_exportedCount, h1]
  · rw [success_image0, h1, imagesFrom_length]
  · rw [success_image1, h1, imagesFrom_length]
  · rw [success_timesTxt, h1, Option.getD_some, fileLines_timesFrom,
        List.length_map]

/-- C8: the program is a deterministic function of the recording: two
invocations over the same recording produce byte-identical `times.txt` and
`calib.txt` contents (in particular, re-running on the same input and
output directory reproduces both files). -/
theorem c8_rerun_reproducible (i1 i2 : String) (o1 o2 : Option String)
    (rec : Recording) :
    (zed2_to_kitti i1 o1 rec).timesTxt = (zed2_to_kitti i2 o2 rec).timesTxt ∧
    (zed2_to_kitti i1 o1 rec).calibTxt = (zed2_to_kitti i2 o2 rec).calibTxt := by
  obtain ⟨st, c, gs⟩ := rec
  cases st <;> simp [zed2_to_kitti]

/-- C9: on every successful run the handle trace is the open call, then the
four calibration reads, then the grab calls, then the single close call; in
particular every calibration read happens before the loop's grab calls and
before `close()`, and no calibration read follows the close call. -/
theorem c9_calib_read_before_close (i : String) (o : Option String)
    (c : CalibrationParameters) (gs : List GrabStep) :
    (∃ m, (zed2_to_kitti i o ⟨ErrorCode.SUCCESS, c, gs⟩).events =
      HEvent.openCall :: List.replicate 4 HEvent.calibRead ++
        List.replicate m HEvent.grabCall ++ [HEvent.closeCall]) ∧
    (∀ l1 l2, (zed2_to_kitti i o ⟨ErrorCode.SUCCESS, c, gs⟩).events =
        l1 ++ HEvent.closeCall :: l2 → HEvent.calibRead ∉ l2) := by
  refine ⟨⟨grabCallCount gs, success_events i o c gs⟩, ?_⟩
  intro l1 l2 heq
  rw [success_events] at heq
  have hsh : HEvent.openCall :: List.replicate 4 HEvent.calibRead ++
      List.replicate (grabCallCount gs) HEvent.grabCall ++ [HEvent.closeCall] =
      (HEvent.openCall :: (List.replicate 4 HEvent.calibRead ++
        List.replicate (grabCallCount gs) HEvent.grabCall)) ++
        [HEvent.closeCall] := by
    simp
  rw [hsh] at heq
  have hnm : HEvent.closeCall ∉
      HEvent.openCall :: (List.replicate 4 HEvent.calibRead ++
        List.replicate (grabCallCount gs) HEvent.grabCall) := by
    simp [List.mem_replicate]
  have hnil := suffix_nil_of_concat_eq _ l1 l2 hnm heq
  rw [hnil]
  simp

/-- C10: `calib.txt` depends only on the calibration block — runs over the
same block but arbitrary different frame streams (and different paths)
write identical `calib.txt` — and a zero-frame recording still produces the
well-formed two-line file with the `P0:`/`P1:` labels. -/
theorem c10_calib_noninterference (i1 i2 : String) (o1 o2 : Option String)
    (c : CalibrationParameters) (gs1 gs2 : List GrabStep) :
    (zed2_to_kitti i1 o1 ⟨ErrorCode.SUCCESS, c, gs1⟩).calibTxt =
      (zed2_to_kitti i2 o2 ⟨ErrorCode.SUCCESS, c, gs2⟩).calibTxt ∧
    (zed2_to_kitti i1 o1 ⟨ErrorCode.SUCCESS, c, []⟩).calibTxt ≠ none ∧
    (fileLines ((zed2_to_kitti i1 o1
        ⟨ErrorCode.SUCCESS, c, []⟩).calibTxt.getD [])).length = 2 ∧
    (splitChar ' ' ((fileLines ((zed2_to_kitti i1 o1
        ⟨ErrorCode.SUCCESS, c, []⟩).calibTxt.getD [])).getD 0 [])).getD 0 [] =
      chars "P0:" ∧
    (splitChar ' ' ((fileLines ((zed2_to_kitti i1 o1
        ⟨ErrorCode.SUCCESS, c, []⟩).calibTxt.getD [])).getD 1 [])).getD 0 [] =
      chars "P1:" := by
  refine ⟨?_, ?_, ?_, ?_, ?_⟩
  · rw [success_calibTxt, success_calibTxt]
  · rw [success_calibTxt]
    simp
  · rw [success_calib_lines]
    rfl
  · rw [success_calib_lines]
    show (splitChar ' ' (P0_of c)).getD 0 [] = _
    rw [P0_of, P0_tokens]
    rfl
  · rw [success_calib_lines]
    show (splitChar ' ' (P1_of c)).getD 0 [] = _
    rw [P1_of, P1_tokens]
    rfl

/-- C9 witness: the theorem applied to a concrete zero-frame recording,
with the trace-decomposition hypothesis discharged by evaluation. -/
theorem c9_calib_read_before_close_witness :
    HEvent.calibRead ∉ ([] : List HEvent) :=
  (c9_calib_read_before_close "/data/run1.svo" none calibDemo []).2
    [HEvent.openCall, HEvent.calibRead, HEvent.calibRead, HEvent.calibRead,
      HEvent.calibRead] [] (by decide)

end ZedKitti
